import Mathlib

/-!
Verification of the recycle-bin store of `CinnaOS.py`
(`load_recycle_index`, `save_recycle_index`, `move_to_recycle`,
`restore_from_recycle`, `empty_recycle`).

The filesystem is embedded as explicit state: regular files are an
association list from path strings to byte contents (bytes as `List Nat`),
directories are a list of path strings, and the persisted recycle index is
kept as the parsed mapping it serializes (the JSON round-trip
`json.loads (json.dumps m) = m` is the identity on the mappings this store
writes).  The association-list operations mirror Python `dict` semantics:
assignment replaces the value in place for an existing key and appends
otherwise, `pop` removes the binding.  I/O failures of the copy steps are
environment inputs, passed as explicit `Bool` oracles (`copyOk`); a failed
copy is modelled as failing before any byte is written.  Index writes via
`save_recycle_index` are modelled as succeeding (the Python code swallows
write errors silently; the claims under study concern the logic, not a
failing disk on the index file itself).
-/

namespace CinnaOS

/-- Archive directory `RECYCLE_DIR = BASE_FOLDER / "recycle_bin"` from the source. -/
def RECYCLE_DIR : String := "D:/CinnaOS/recycle_bin"

/-- Index document path `RECYCLE_INDEX = RECYCLE_DIR / "index.json"` from the source. -/
def RECYCLE_INDEX : String := "D:/CinnaOS/recycle_bin/index.json"

/-! ### JSON-level model of the index document (for `load_recycle_index`) -/

/-- Python values that `json.loads` can produce. -/
inductive PyVal where
  | dict : List (String × PyVal) → PyVal
  | arr : List PyVal → PyVal
  | str : String → PyVal
  | int : Int → PyVal
  | bool : Bool → PyVal
  | null : PyVal

/-- Modelled from the Python standard library: the outcome of
`RECYCLE_INDEX.read_text(encoding="utf-8")` followed by `json.loads` on the
current content of the index document.  `parses v` means both calls succeed
and the parsed value is `v`; `raises` means reading or parsing raises
(missing file, undecodable bytes, or text that is not valid JSON). -/
inductive IndexDoc where
  | parses : PyVal → IndexDoc
  | raises : IndexDoc

/-- Source `load_recycle_index`: returns whatever `json.loads` produced, and
returns the empty dict `{}` when reading or parsing raises. -/
def load_recycle_index : IndexDoc → PyVal
  | .parses v => v
  | .raises => .dict []

/-! ### Mapping-level model of the store state and operations -/

/-- One index entry as written by `move_to_recycle`:
`{"orig": ..., "type": ..., "saved": ...}` where `saved` is a path string or
JSON `null`. -/
structure Entry where
  orig : String
  type : String
  saved : Option String
deriving DecidableEq

/-- Python `d[k]` / `k in d` read on an association list (first binding wins,
as in a dict, which never holds duplicate keys). -/
def pyDictGet (m : List (String × α)) (k : String) : Option α :=
  (m.find? (fun q => q.1 == k)).map (fun q => q.2)

/-- Python `d[k] = v`: replace the value in place when the key is bound,
otherwise append the new binding at the end (dict insertion order). -/
def pyDictSet : List (String × α) → String → α → List (String × α)
  | [], k, v => [(k, v)]
  | q :: rest, k, v =>
    if q.1 == k then (k, v) :: rest else q :: pyDictSet rest k v

/-- Python `d.pop(k, None)`: drop the binding of `k`, keep the rest. -/
def pyDictPop (m : List (String × α)) (k : String) : List (String × α) :=
  m.filter (fun q => !(q.1 == k))

/-- Explicit filesystem-and-index state threaded through the store
operations.  `files` maps each regular file's path to its byte content;
`dirs` lists existing directories; `index` is the persisted recycle index
(the mapping serialized in `index.json`); `cwd` is the process working
directory used by `os.path.abspath`. -/
structure FSState where
  cwd : String
  files : List (String × List Nat)
  dirs : List String
  index : List (String × Entry)
deriving DecidableEq

/-- Content of the regular file at `p`, if one exists. -/
def getFile (s : FSState) (p : String) : Option (List Nat) :=
  pyDictGet s.files p

/-- Source `os.path.isfile(path)`: true exactly on regular files. -/
def isfile (s : FSState) (p : String) : Bool :=
  (getFile s p).isSome

/-- Effect of `open(p, "wb")` followed by writing `b`: create or overwrite. -/
def writeFileS (s : FSState) (p : String) (b : List Nat) : FSState :=
  { s with files := pyDictSet s.files p b }

/-- Effect of `os.remove(p)` / `Path(p).unlink()`; removing a missing path is
a no-op here (the source wraps every removal in `try/except: pass`). -/
def removeFileS (s : FSState) (p : String) : FSState :=
  { s with files := pyDictPop s.files p }

/-- Modelled from the Python standard library `posixpath.basename`: the part
of the path after the final separator (empty when the path ends in one). -/
def basename (p : String) : String :=
  ⟨(p.data.reverse.takeWhile (fun c => c != '/')).reverse⟩

/-- Modelled from the Python standard library `posixpath.dirname`: the part
of the path before the final separator. -/
def dirname (p : String) : String :=
  ⟨((p.data.reverse.dropWhile (fun c => c != '/')).drop 1).reverse⟩

/-- Split a character list at every `'/'` (helper for `os_path_abspath`). -/
def splitSlashAux : List Char → List Char → List String
  | [], acc => [⟨acc.reverse⟩]
  | c :: rest, acc =>
    if c = '/' then (⟨acc.reverse⟩ : String) :: splitSlashAux rest []
    else splitSlashAux rest (c :: acc)

/-- Path-segment normalization used by `os.path.abspath`: drop empty and `.`
segments, resolve `..` against the accumulated prefix. -/
def normSegs (parts : List String) : List String :=
  parts.foldl
    (fun acc part =>
      if part = "" || part = "." then acc
      else if part = ".." then acc.dropLast
      else acc ++ [part])
    []

/-- Join path segments with `'/'` (helper for `os_path_abspath`). -/
def joinSlash : List String → String
  | [] => ""
  | [x] => x
  | x :: rest => x ++ "/" ++ joinSlash rest

/-- Whether the path starts with the separator, as `p.startswith("/")`. -/
def startsWithSlash (p : String) : Bool :=
  match p.data with
  | [] => false
  | c :: _ => c == '/'

/-- Modelled from the Python standard library `posixpath.abspath`: join a
relative path onto the working directory, then normalize segments. -/
def os_path_abspath (cwd p : String) : String :=
  let full := if startsWithSlash p then p else cwd ++ "/" ++ p
  "/" ++ joinSlash (normSegs (splitSlashAux full.data []))

/-- Effect of `dest.parent.mkdir(parents=True, exist_ok=True)`. -/
def mkdirParents (s : FSState) (p : String) : FSState :=
  { s with dirs := if s.dirs.contains p then s.dirs else s.dirs ++ [p] }

/-- Name component used for the key: `os.path.basename(path) or "unknown"`
(Python truthiness: the empty string falls back to the literal). -/
def moveName (path : String) : String :=
  if basename path = "" then "unknown" else basename path

/-- Key generated by `move_to_recycle`: `f"{timestamp}_{name}"`. -/
def moveKey (now : Nat) (path : String) : String :=
  toString now ++ "_" ++ moveName path

/-- Blob path `target = RECYCLE_DIR / key`. -/
def recycleTarget (key : String) : String :=
  RECYCLE_DIR ++ "/" ++ key

/-- Entry recorded by `move_to_recycle` for `path` under `key`: kind `file`
with the blob path when the copy of a regular file succeeds, kind `error`
with no blob when the copy step raises, kind `unknown` with no blob when the
path is not a regular file. -/
def moveEntry (s : FSState) (copyOk : Bool) (path key : String) : Entry :=
  if isfile s path then
    if copyOk then
      ⟨os_path_abspath s.cwd path, "file", some (recycleTarget key)⟩
    else
      ⟨os_path_abspath s.cwd path, "error", none⟩
  else
    ⟨os_path_abspath s.cwd path, "unknown", none⟩

/-- Source `move_to_recycle(path)`.  `now` is `int(time.time())`; `copyOk`
is the I/O oracle for the byte copy into the archive (`False` means the copy
step raises, modelled as failing before writing the target); `removeOk` is
the oracle for the best-effort `os.remove(path)` whose failure is swallowed.
Returns the generated key and the updated state; the index write by
`save_recycle_index` is modelled as succeeding. -/
def move_to_recycle (now : Nat) (copyOk removeOk : Bool) (path : String)
    (s : FSState) : String × FSState :=
  let key := moveKey now path
  let entry := moveEntry s copyOk path key
  let s1 :=
    if isfile s path && copyOk then
      let content := (getFile s path).getD []
      let s' := writeFileS s (recycleTarget key) content
      if removeOk then removeFileS s' path else s'
    else s
  (key, { s1 with index := pyDictSet s.index key entry })

/-- Modelled message for `str(e)` of an I/O exception raised during the
restore copy; the Python text depends on the environment, only its presence
matters to the claims. -/
def ioErrorMessage : String := "I/O error during copy"

/-- Python truthiness of `entry.get("saved")`: JSON `null` and the empty
string are both falsy. -/
def entrySaved (e : Entry) : Option String :=
  match e.saved with
  | some p => if p = "" then none else some p
  | none => none

/-- Source `restore_from_recycle(key, target_path=None)`.  `copyOk` is the
I/O oracle for the `mkdir` + byte copy to the destination (`false` means
that step raises, modelled as failing before any effect); a missing archived
blob makes `open(saved, "rb")` raise as well.  Returns the `(success,
message)` pair and the updated state. -/
def restore_from_recycle (copyOk : Bool) (key : String)
    (targetPath : Option String) (s : FSState) : (Bool × String) × FSState :=
  match pyDictGet s.index key with
  | none => ((false, "Not found"), s)
  | some entry =>
    match entrySaved entry with
    | some saved =>
      if copyOk then
        match getFile s saved with
        | some content =>
          let dest := targetPath.getD entry.orig
          let s1 := mkdirParents s (dirname dest)
          let s2 := writeFileS s1 dest content
          let s3 := removeFileS s2 saved
          ((true, "Restored"), { s3 with index := pyDictPop s.index key })
        | none => ((false, ioErrorMessage), s)
      else ((false, ioErrorMessage), s)
    | none =>
      ((true, "Restored"), { s with index := pyDictPop s.index key })

/-- One iteration of the `empty_recycle` loop: `if v.get("saved"): try:
Path(v["saved"]).unlink() except: pass`. -/
def emptyStep (acc : FSState) (kv : String × Entry) : FSState :=
  match entrySaved kv.2 with
  | some p => removeFileS acc p
  | none => acc

/-- Source `empty_recycle()`: best-effort unlink of every `saved` blob in
index order, then persist the empty mapping.  Always returns `True`. -/
def empty_recycle (s : FSState) : Bool × FSState :=
  let s1 := s.index.foldl emptyStep s
  (true, { s1 with index := [] })

/-! ### Association-list lemmas (Python dict semantics) -/

theorem pyDictGet_nil (k : String) : pyDictGet ([] : List (String × α)) k = none := rfl

theorem pyDictGet_cons (q : String × α) (m : List (String × α)) (k : String) :
    pyDictGet (q :: m) k = if q.1 == k then some q.2 else pyDictGet m k := by
  cases h : (q.1 == k) <;> simp [pyDictGet, List.find?_cons, h]

theorem pyDictGet_set_self (m : List (String × α)) (k : String) (v : α) :
    pyDictGet (pyDictSet m k v) k = some v := by
  induction m with
  | nil => simp [pyDictSet, pyDictGet_cons]
  | cons q rest ih =>
    by_cases h : (q.1 == k) = true
    · simp [pyDictSet, h, pyDictGet_cons]
    · simp only [pyDictSet, h]
      simp [pyDictGet_cons, h, ih]

theorem pyDictGet_pop_self (m : List (String × α)) (k : String) :
    pyDictGet (pyDictPop m k) k = none := by
  induction m with
  | nil => rfl
  | cons q rest ih =>
    by_cases h : (q.1 == k) = true
    · simpa [pyDictPop, List.filter_cons, h] using ih
    · simpa [pyDictPop, List.filter_cons, h, pyDictGet_cons] using ih

theorem pyDictGet_pop_other {k k' : String} (h : k' ≠ k) (m : List (String × α)) :
    pyDictGet (pyDictPop m k) k' = pyDictGet m k' := by
  induction m with
  | nil => rfl
  | cons q rest ih =>
    simp only [pyDictPop] at ih ⊢
    by_cases hq : (q.1 == k) = true
    · have hq1 : q.1 = k := beq_iff_eq.1 hq
      have hq' : (q.1 == k') = false := by
        rw [hq1]
        exact beq_eq_false_iff_ne.2 (Ne.symm h)
      simp [List.filter_cons, hq, pyDictGet_cons, hq', ih]
    · simp [List.filter_cons, hq, pyDictGet_cons, ih]

theorem pyDictGet_eq_none_iff (m : List (String × α)) (k : String) :
    pyDictGet m k = none ↔ ∀ q ∈ m, (q.1 == k) = false := by
  simp [pyDictGet, Option.map_eq_none', List.find?_eq_none]

theorem pyDictSet_fresh (m : List (String × α)) (k : String) (v : α)
    (h : pyDictGet m k = none) : pyDictSet m k v = m ++ [(k, v)] := by
  induction m with
  | nil => rfl
  | cons q rest ih =>
    rw [pyDictGet_cons] at h
    by_cases hq : (q.1 == k) = true
    · simp [hq] at h
    · simp only [hq] at h
      simp only [pyDictSet, hq, if_false]
      simp [ih h]

theorem pyDictSet_append_self (m : List (String × α)) (k : String) (v₁ v₂ : α)
    (h : pyDictGet m k = none) :
    pyDictSet (m ++ [(k, v₁)]) k v₂ = m ++ [(k, v₂)] := by
  induction m with
  | nil => simp [pyDictSet]
  | cons q rest ih =>
    rw [pyDictGet_cons] at h
    by_cases hq : (q.1 == k) = true
    · simp [hq] at h
    · simp only [hq] at h
      simp only [List.cons_append, pyDictSet, hq, if_false]
      simp [ih h]

theorem filter_key_eq_nil (m : List (String × α)) (k : String)
    (h : pyDictGet m k = none) : m.filter (fun q => q.1 == k) = [] := by
  rw [pyDictGet_eq_none_iff] at h
  induction m with
  | nil => rfl
  | cons q rest ih =>
    have hq := h q (List.mem_cons_self _ _)
    simp only [List.filter_cons, hq]
    exact ih fun q' hq' => h q' (List.mem_cons_of_mem _ hq')

theorem pyDict_last_write_wins (m : List (String × α)) (k : String) (v₁ v₂ : α)
    (h : pyDictGet m k = none) :
    (pyDictSet (pyDictSet m k v₁) k v₂).filter (fun q => q.1 == k) = [(k, v₂)] := by
  rw [pyDictSet_fresh m k v₁ h, pyDictSet_append_self m k v₁ v₂ h, List.filter_append,
    filter_key_eq_nil m k h]
  simp

/-! ### Filesystem-state lemmas -/

theorem getFile_writeFileS_self (s : FSState) (p : String) (b : List Nat) :
    getFile (writeFileS s p b) p = some b :=
  pyDictGet_set_self s.files p b

theorem getFile_removeFileS_self (s : FSState) (p : String) :
    getFile (removeFileS s p) p = none :=
  pyDictGet_pop_self s.files p

theorem getFile_removeFileS_other {p p' : String} (h : p' ≠ p) (s : FSState) :
    getFile (removeFileS s p) p' = getFile s p' :=
  pyDictGet_pop_other h s.files

theorem getFile_emptyStep_none (acc : FSState) (kv : String × Entry) (p : String)
    (h : getFile acc p = none) : getFile (emptyStep acc kv) p = none := by
  unfold emptyStep
  cases hs : entrySaved kv.2 with
  | none => exact h
  | some q =>
    by_cases hpq : p = q
    · subst hpq; exact getFile_removeFileS_self acc p
    · rw [getFile_removeFileS_other hpq]; exact h

theorem getFile_foldl_none (l : List (String × Entry)) (acc : FSState) (p : String)
    (h : getFile acc p = none) : getFile (l.foldl emptyStep acc) p = none := by
  induction l generalizing acc with
  | nil => simpa using h
  | cons kv rest ih => exact ih _ (getFile_emptyStep_none _ _ _ h)

theorem getFile_foldl_removes (l : List (String × Entry)) (acc : FSState)
    (kv : String × Entry) (p : String) (hmem : kv ∈ l)
    (hs : entrySaved kv.2 = some p) :
    getFile (l.foldl emptyStep acc) p = none := by
  induction l generalizing acc with
  | nil => cases hmem
  | cons q rest ih =>
    rcases List.mem_cons.1 hmem with rfl | hmem'
    · rw [List.foldl_cons]
      refine getFile_foldl_none rest _ p ?_
      simp [emptyStep, hs, getFile_removeFileS_self]
    · exact ih _ hmem'

/-! ### Key / basename lemmas -/

theorem takeWhile_append_all {β : Type} {p : β → Bool} {l₁ : List β} (l₂ : List β)
    (h : ∀ a ∈ l₁, p a = true) :
    (l₁ ++ l₂).takeWhile p = l₁ ++ l₂.takeWhile p := by
  induction l₁ with
  | nil => simp
  | cons c cs ih =>
    have hc := h c (List.mem_cons_self _ _)
    simp [List.takeWhile_cons, hc, ih fun a ha => h a (List.mem_cons_of_mem _ ha)]

theorem mem_basename_ne_slash (s : String) :
    ∀ c ∈ (basename s).data, (c != '/') = true := by
  intro c hc
  have hc' : c ∈ s.data.reverse.takeWhile (fun c => c != '/') := by
    simpa [basename] using hc
  exact List.mem_takeWhile_imp (p := fun c => c != '/') hc'

theorem basename_decomposed (pre mid N : List Char) (path : String)
    (hN : ∀ c ∈ N, (c != '/') = true)
    (hd : path.data = pre ++ '/' :: (mid ++ '_' :: N)) :
    ∃ T : List Char, (basename path).data = T ++ '_' :: N := by
  refine ⟨(List.takeWhile (fun c => c != '/') (mid.reverse ++ '/' :: pre.reverse)).reverse, ?_⟩
  have hrev : path.data.reverse = (N.reverse ++ ['_']) ++ (mid.reverse ++ '/' :: pre.reverse) := by
    rw [hd]; simp
  have hall : ∀ a ∈ N.reverse ++ ['_'], ((a != '/') = true) := by
    intro a ha
    rcases List.mem_append.1 ha with h1 | h2
    · exact hN a (List.mem_reverse.1 h1)
    · simp only [List.mem_singleton] at h2
      subst h2; decide
  show (path.data.reverse.takeWhile (fun c => c != '/')).reverse = _
  rw [hrev, takeWhile_append_all _ hall]
  simp

theorem recycleTarget_moveKey_data (now : Nat) (path : String) :
    (recycleTarget (moveKey now path)).data
      = RECYCLE_DIR.data ++ '/' :: ((toString now).data ++ '_' :: (moveName path).data) := by
  simp [recycleTarget, moveKey, String.data_append]

theorem ne_recycleTarget_moveKey (now : Nat) (path : String) :
    path ≠ recycleTarget (moveKey now path) := by
  intro h
  have hd := congrArg String.data h
  rw [recycleTarget_moveKey_data] at hd
  by_cases hb : basename path = ""
  · rw [moveName, if_pos hb] at hd
    obtain ⟨T, hT⟩ := basename_decomposed _ _ _ path (by decide) hd
    rw [hb] at hT
    simp at hT
  · rw [moveName, if_neg hb] at hd
    obtain ⟨T, hT⟩ := basename_decomposed _ _ _ path (mem_basename_ne_slash path) hd
    have := congrArg List.length hT
    simp [List.length_append] at this
    omega

theorem recycleTarget_ne_empty (k : String) : recycleTarget k ≠ "" := by
  intro h
  have hl := congrArg String.length h
  rw [recycleTarget, String.length_append, String.length_append] at hl
  have h22 : RECYCLE_DIR.length = 22 := rfl
  have h1 : ("/" : String).length = 1 := rfl
  have h0 : ("" : String).length = 0 := rfl
  rw [h22, h1, h0] at hl
  omega

/-! ### Characterizations of the store operations -/

theorem move_file_spec (now : Nat) (rm : Bool) (path : String) (s : FSState)
    (B : List Nat) (hF : getFile s path = some B) :
    move_to_recycle now true rm path s =
      (moveKey now path,
       { s with
         files :=
           if rm then
             pyDictPop (pyDictSet s.files (recycleTarget (moveKey now path)) B) path
           else pyDictSet s.files (recycleTarget (moveKey now path)) B,
         index := pyDictSet s.index (moveKey now path)
           ⟨os_path_abspath s.cwd path, "file",
            some (recycleTarget (moveKey now path))⟩ }) := by
  have hIs : isfile s path = true := by simp [isfile, hF]
  cases rm <;>
    simp [move_to_recycle, moveEntry, hIs, hF, writeFileS, removeFileS]

theorem restore_file_spec (key : String) (s : FSState) (e : Entry) (saved : String)
    (B : List Nat) (tgt : Option String)
    (hGet : pyDictGet s.index key = some e) (hSaved : entrySaved e = some saved)
    (hBlob : getFile s saved = some B) :
    restore_from_recycle true key tgt s =
      ((true, "Restored"),
       { s with
         files := pyDictPop (pyDictSet s.files (tgt.getD e.orig) B) saved,
         dirs := if s.dirs.contains (dirname (tgt.getD e.orig)) then s.dirs
                 else s.dirs ++ [dirname (tgt.getD e.orig)],
         index := pyDictPop s.index key }) := by
  simp [restore_from_recycle, hGet, hSaved, hBlob, mkdirParents, writeFileS,
    removeFileS]

theorem restore_nosaved_spec (key : String) (s : FSState) (e : Entry)
    (tgt : Option String) (copyOk : Bool)
    (hGet : pyDictGet s.index key = some e) (hSaved : entrySaved e = none) :
    restore_from_recycle copyOk key tgt s =
      ((true, "Restored"), { s with index := pyDictPop s.index key }) := by
  simp [restore_from_recycle, hGet, hSaved]

/-! ### Claim theorems -/

/-- C1: in every state where `P` is a regular file with byte content `B`
(written as the canonical absolute path `os.path.abspath` fixes),
`move_to_recycle(P)` at any timestamp followed by `restore_from_recycle`
of the returned key with no target succeeds, leaves a file at `P` whose
byte content equals `B`, removes the archived blob from the archive
directory, and leaves the index without the key.  `rm` is the I/O oracle
for the best-effort delete of the original during the move; the round
trip holds whether or not that delete succeeded. -/
theorem move_then_restore_roundtrip (s : FSState) (P : String) (B : List Nat)
    (now : Nat) (rm : Bool) (key : String) (s₁ s₂ : FSState) (res : Bool × String)
    (hF : getFile s P = some B)
    (hA : os_path_abspath s.cwd P = P)
    (hMove : move_to_recycle now true rm P s = (key, s₁))
    (hRestore : restore_from_recycle true key none s₁ = (res, s₂)) :
    res = (true, "Restored") ∧
    getFile s₂ P = some B ∧
    getFile s₂ (recycleTarget key) = none ∧
    pyDictGet s₂.index key = none := by
  have hne : P ≠ recycleTarget (moveKey now P) := ne_recycleTarget_moveKey now P
  rw [move_file_spec now rm P s B hF] at hMove
  injection hMove with hkey hs₁
  subst hkey
  have hidx : s₁.index = pyDictSet s.index (moveKey now P)
      ⟨os_path_abspath s.cwd P, "file", some (recycleTarget (moveKey now P))⟩ := by
    rw [← hs₁]
  have hfiles : s₁.files =
      if rm then
        pyDictPop (pyDictSet s.files (recycleTarget (moveKey now P)) B) P
      else pyDictSet s.files (recycleTarget (moveKey now P)) B := by
    rw [← hs₁]
  have hGet : pyDictGet s₁.index (moveKey now P) =
      some ⟨os_path_abspath s.cwd P, "file", some (recycleTarget (moveKey now P))⟩ := by
    rw [hidx]; exact pyDictGet_set_self _ _ _
  have hSaved : entrySaved
      ⟨os_path_abspath s.cwd P, "file", some (recycleTarget (moveKey now P))⟩ =
      some (recycleTarget (moveKey now P)) := by
    simp [entrySaved, recycleTarget_ne_empty]
  have hBlob : getFile s₁ (recycleTarget (moveKey now P)) = some B := by
    show pyDictGet s₁.files _ = some B
    rw [hfiles]
    cases rm
    · rw [if_neg (by simp)]
      exact pyDictGet_set_self _ _ _
    · rw [if_pos rfl, pyDictGet_pop_other (Ne.symm hne)]
      exact pyDictGet_set_self _ _ _
  rw [restore_file_spec (moveKey now P) s₁ _ (recycleTarget (moveKey now P)) B none
    hGet hSaved hBlob] at hRestore
  injection hRestore with hres hs₂
  subst hres
  subst hs₂
  refine ⟨rfl, ?_, ?_, pyDictGet_pop_self _ _⟩
  · show pyDictGet (pyDictPop (pyDictSet s₁.files _ B) (recycleTarget (moveKey now P))) P
      = some B
    rw [pyDictGet_pop_other hne]
    show pyDictGet (pyDictSet s₁.files (os_path_abspath s.cwd P) B) P = some B
    rw [hA]
    exact pyDictGet_set_self _ _ _
  · exact pyDictGet_pop_self _ _

/-- C1 witness: the round trip at timestamp 7 on the file `/tmp/a.txt` with
content `[104, 105]`. -/
theorem move_then_restore_roundtrip_witness :
    ((true, "Restored") : Bool × String) = (true, "Restored") ∧
    getFile (⟨"/", [("/tmp/a.txt", [104, 105])], ["/tmp"], []⟩ : FSState) "/tmp/a.txt"
      = some [104, 105] ∧
    getFile (⟨"/", [("/tmp/a.txt", [104, 105])], ["/tmp"], []⟩ : FSState)
      (recycleTarget "7_a.txt") = none ∧
    pyDictGet (FSState.index ⟨"/", [("/tmp/a.txt", [104, 105])], ["/tmp"], []⟩) "7_a.txt"
      = none :=
  move_then_restore_roundtrip
    (⟨"/", [("/tmp/a.txt", [104, 105])], [], []⟩ : FSState) "/tmp/a.txt" [104, 105] 7 true
    "7_a.txt"
    (⟨"/", [("D:/CinnaOS/recycle_bin/7_a.txt", [104, 105])], [],
      [("7_a.txt", ⟨"/tmp/a.txt", "file", some "D:/CinnaOS/recycle_bin/7_a.txt"⟩)]⟩ : FSState)
    (⟨"/", [("/tmp/a.txt", [104, 105])], ["/tmp"], []⟩ : FSState)
    (true, "Restored")
    (by decide) (by decide) (by decide) (by decide)

/-- C2 counterexample: when the index document holds the text `"[]"`, which
`json.loads` parses into the empty Python list (a valid JSON value that is
not a mapping), `load_recycle_index` returns that list unchanged, not the
empty mapping the claim requires. -/
theorem load_nonmapping_counterexample :
    load_recycle_index (IndexDoc.parses (PyVal.arr [])) = PyVal.arr [] ∧
    PyVal.arr [] ≠ PyVal.dict [] :=
  ⟨rfl, fun h => PyVal.noConfusion h⟩

/-- C2 (amended): loading the index returns the empty mapping when reading
or parsing the document raises (missing file, undecodable bytes, text that
is not valid JSON); a successfully parsed value is returned as-is, so a
valid JSON document of non-mapping shape yields that non-mapping value
rather than being reset to empty. -/
theorem load_recycle_index_corruption_behavior :
    load_recycle_index IndexDoc.raises = PyVal.dict [] ∧
    ∀ v, load_recycle_index (IndexDoc.parses v) = v :=
  ⟨rfl, fun _ => rfl⟩

/-- C3: for every key bound in the index to an entry whose `saved` field
names an archived blob (so the copy step runs), an I/O error raised while
copying the archived bytes during `restore_from_recycle` makes the call
return `(false, <error message>)` and leaves the whole state — in
particular the persisted index — unmodified, so the entry remains
present. -/
theorem restore_copy_failure_preserves_index (s : FSState) (key : String)
    (e : Entry) (p : String) (tgt : Option String)
    (hGet : pyDictGet s.index key = some e)
    (hSaved : entrySaved e = some p) :
    restore_from_recycle false key tgt s = ((false, ioErrorMessage), s) ∧
    (restore_from_recycle false key tgt s).2.index = s.index ∧
    pyDictGet (restore_from_recycle false key tgt s).2.index key = some e := by
  have h1 : restore_from_recycle false key tgt s = ((false, ioErrorMessage), s) := by
    simp [restore_from_recycle, hGet, hSaved]
  exact ⟨h1, by rw [h1], by rw [h1]; exact hGet⟩

/-- C3 witness: a one-entry index with an archived blob, restore under a
failing copy oracle. -/
theorem restore_copy_failure_preserves_index_witness :
    restore_from_recycle false "7_a.txt" none
      (⟨"/", [("D:/CinnaOS/recycle_bin/7_a.txt", [104, 105])], [],
        [("7_a.txt", ⟨"/tmp/a.txt", "file", some "D:/CinnaOS/recycle_bin/7_a.txt"⟩)]⟩ :
        FSState) =
      ((false, ioErrorMessage),
       (⟨"/", [("D:/CinnaOS/recycle_bin/7_a.txt", [104, 105])], [],
        [("7_a.txt", ⟨"/tmp/a.txt", "file", some "D:/CinnaOS/recycle_bin/7_a.txt"⟩)]⟩ :
        FSState)) :=
  (restore_copy_failure_preserves_index
    (⟨"/", [("D:/CinnaOS/recycle_bin/7_a.txt", [104, 105])], [],
      [("7_a.txt", ⟨"/tmp/a.txt", "file", some "D:/CinnaOS/recycle_bin/7_a.txt"⟩)]⟩ :
      FSState)
    "7_a.txt" ⟨"/tmp/a.txt", "file", some "D:/CinnaOS/recycle_bin/7_a.txt"⟩
    "D:/CinnaOS/recycle_bin/7_a.txt" none (by decide) (by decide)).1

/-- C4: for every key not bound in the index and every optional target
path, `restore_from_recycle` returns `(false, "Not found")` and leaves the
state — filesystem and index alike — completely unchanged. -/
theorem restore_missing_key_not_found (s : FSState) (key : String)
    (copyOk : Bool) (tgt : Option String)
    (hGet : pyDictGet s.index key = none) :
    restore_from_recycle copyOk key tgt s = ((false, "Not found"), s) := by
  simp [restore_from_recycle, hGet]

/-- C4 witness: restoring an absent key from a small state. -/
theorem restore_missing_key_not_found_witness :
    restore_from_recycle true "missing" none
      (⟨"/", [("/tmp/a.txt", [1])], [],
        [("7_a.txt", ⟨"/tmp/a.txt", "unknown", none⟩)]⟩ : FSState) =
      ((false, "Not found"),
       (⟨"/", [("/tmp/a.txt", [1])], [],
        [("7_a.txt", ⟨"/tmp/a.txt", "unknown", none⟩)]⟩ : FSState)) :=
  restore_missing_key_not_found
    (⟨"/", [("/tmp/a.txt", [1])], [],
      [("7_a.txt", ⟨"/tmp/a.txt", "unknown", none⟩)]⟩ : FSState)
    "missing" true none (by decide)

/-- C5: from any state, `empty_recycle()` returns success, replaces the
index with the empty mapping, and deletes every archived file referenced
by a truthy `saved` field of an index entry (missing files are ignored:
the deletion loop is total and never fails). -/
theorem empty_recycle_clears_index_and_blobs (s : FSState) :
    (empty_recycle s).1 = true ∧
    (empty_recycle s).2.index = [] ∧
    ∀ k e p, pyDictGet s.index k = some e → entrySaved e = some p →
      getFile (empty_recycle s).2 p = none := by
  refine ⟨rfl, rfl, ?_⟩
  intro k e p hGet hSaved
  unfold pyDictGet at hGet
  obtain ⟨q, hq1, hq2⟩ := Option.map_eq_some'.1 hGet
  have hmem := List.mem_of_find?_eq_some hq1
  show pyDictGet (s.index.foldl emptyStep s).files p = none
  exact getFile_foldl_removes s.index s q p hmem (by rw [hq2]; exact hSaved)

/-- C5 witness: a two-entry index, one archived blob and one `null`
`saved`; after `empty_recycle` the index is empty and the blob is gone. -/
theorem empty_recycle_clears_index_and_blobs_witness :
    (empty_recycle
      (⟨"/", [("D:/CinnaOS/recycle_bin/7_a.txt", [104, 105])], [],
        [("7_a.txt", ⟨"/tmp/a.txt", "file", some "D:/CinnaOS/recycle_bin/7_a.txt"⟩),
         ("8_d", ⟨"/tmp/d", "unknown", none⟩)]⟩ : FSState)).2.index = [] ∧
    getFile (empty_recycle
      (⟨"/", [("D:/CinnaOS/recycle_bin/7_a.txt", [104, 105])], [],
        [("7_a.txt", ⟨"/tmp/a.txt", "file", some "D:/CinnaOS/recycle_bin/7_a.txt"⟩),
         ("8_d", ⟨"/tmp/d", "unknown", none⟩)]⟩ : FSState)).2
      "D:/CinnaOS/recycle_bin/7_a.txt" = none := by
  have h := empty_recycle_clears_index_and_blobs
    (⟨"/", [("D:/CinnaOS/recycle_bin/7_a.txt", [104, 105])], [],
      [("7_a.txt", ⟨"/tmp/a.txt", "file", some "D:/CinnaOS/recycle_bin/7_a.txt"⟩),
       ("8_d", ⟨"/tmp/d", "unknown", none⟩)]⟩ : FSState)
  exact ⟨h.2.1,
    h.2.2 "7_a.txt" ⟨"/tmp/a.txt", "file", some "D:/CinnaOS/recycle_bin/7_a.txt"⟩
      "D:/CinnaOS/recycle_bin/7_a.txt" (by decide) (by decide)⟩

/-- C6: `empty_recycle` is idempotent — run on the state a first call
produced, a second call returns success and the very same state: no file
changes, index still empty, no error (the operation is total). -/
theorem empty_recycle_idempotent (s : FSState) :
    empty_recycle (empty_recycle s).2 = (true, (empty_recycle s).2) := rfl

/-- C7 counterexample: at path `"/tmp/"` (empty basename) and timestamp 5
the returned key is `"5_unknown"`, not the claimed
`"<unix_timestamp>_<basename(path)>"` which here is `"5_"`. -/
theorem move_key_format_counterexample :
    (move_to_recycle 5 true true "/tmp/" (⟨"/", [], [], []⟩ : FSState)).1 ≠
      toString 5 ++ "_" ++ basename "/tmp/" ∧
    (move_to_recycle 5 true true "/tmp/" (⟨"/", [], [], []⟩ : FSState)).1
      = "5_unknown" := by
  exact ⟨by decide, rfl⟩

/-- C7 (amended): for every input path, `move_to_recycle` returns the key
`"<unix_timestamp>_<name>"` — where `name` is `basename(path)`, replaced by
the literal `"unknown"` when the basename is empty — unconditionally: in
particular also when the internal copy step fails, in which case the entry
is recorded with kind `error` and `storedPath = None`; the caller cannot
distinguish success from archiving failure from the return value, which is
the same key for every value of the copy oracle. -/
theorem move_returns_key_unconditionally (now : Nat) (s : FSState)
    (path : String) (o r : Bool) :
    (move_to_recycle now o r path s).1 = moveKey now path ∧
    (isfile s path = true → o = false →
      pyDictGet (move_to_recycle now o r path s).2.index (moveKey now path) =
        some ⟨os_path_abspath s.cwd path, "error", none⟩) := by
  constructor
  · rfl
  · intro hIs ho
    subst ho
    have hcond : (isfile s path && false) = false := by simp
    simp [move_to_recycle, moveEntry, hIs, hcond, pyDictGet_set_self]

/-- C7 witness: a regular file moved under a failing copy oracle still
yields the timestamp-and-name key, with an `error` entry recorded. -/
theorem move_returns_key_unconditionally_witness :
    (move_to_recycle 3 false true "/a/b.txt"
      (⟨"/", [("/a/b.txt", [1])], [], []⟩ : FSState)).1 = moveKey 3 "/a/b.txt" ∧
    pyDictGet (move_to_recycle 3 false true "/a/b.txt"
      (⟨"/", [("/a/b.txt", [1])], [], []⟩ : FSState)).2.index (moveKey 3 "/a/b.txt") =
      some ⟨os_path_abspath "/" "/a/b.txt", "error", none⟩ := by
  have h := move_returns_key_unconditionally 3
    (⟨"/", [("/a/b.txt", [1])], [], []⟩ : FSState) "/a/b.txt" false true
  exact ⟨h.1, h.2 (by decide) rfl⟩

/-- C8: for every existing path that is not a regular file (here: a member
of the directory list with no file at that path), `move_to_recycle` records
an entry with kind `unknown` and `storedPath = None` while leaving every
file and directory on disk untouched, and a subsequent
`restore_from_recycle` of that key returns success while performing no file
copy — it only removes the index entry. -/
theorem move_non_regular_file_logged_only (s : FSState) (d : String) (now : Nat)
    (o r o₂ : Bool) (key : String) (s₁ : FSState)
    (hDir : d ∈ s.dirs)
    (hNot : getFile s d = none)
    (hMove : move_to_recycle now o r d s = (key, s₁)) :
    s₁.files = s.files ∧ s₁.dirs = s.dirs ∧
    pyDictGet s₁.index key = some ⟨os_path_abspath s.cwd d, "unknown", none⟩ ∧
    restore_from_recycle o₂ key none s₁ =
      ((true, "Restored"), { s₁ with index := pyDictPop s₁.index key }) := by
  have hIs : isfile s d = false := by simp [isfile, hNot]
  have hMove' : move_to_recycle now o r d s =
      (moveKey now d,
       { s with index := (pyDictSet s.index (moveKey now d)
          (⟨os_path_abspath s.cwd d, "unknown", none⟩ : Entry)) }) := by
    simp [move_to_recycle, moveEntry, hIs]
  rw [hMove'] at hMove
  injection hMove with hk hs
  subst hk
  subst hs
  refine ⟨rfl, rfl, pyDictGet_set_self _ _ _, ?_⟩
  exact restore_nosaved_spec _ _ _ none o₂ (pyDictGet_set_self _ _ _) rfl

/-- C8 witness: moving the directory `/tmp/d` at timestamp 4, then
restoring the produced key. -/
theorem move_non_regular_file_logged_only_witness :
    (FSState.files ⟨"/", [], ["/tmp/d"],
        [("4_d", ⟨"/tmp/d", "unknown", none⟩)]⟩) = ([] : List (String × List Nat)) ∧
    (FSState.dirs ⟨"/", [], ["/tmp/d"],
        [("4_d", ⟨"/tmp/d", "unknown", none⟩)]⟩) = ["/tmp/d"] ∧
    pyDictGet (FSState.index ⟨"/", [], ["/tmp/d"],
        [("4_d", ⟨"/tmp/d", "unknown", none⟩)]⟩) "4_d" =
      some ⟨os_path_abspath "/" "/tmp/d", "unknown", none⟩ ∧
    restore_from_recycle true "4_d" none
      (⟨"/", [], ["/tmp/d"], [("4_d", ⟨"/tmp/d", "unknown", none⟩)]⟩ : FSState) =
      ((true, "Restored"),
       { (⟨"/", [], ["/tmp/d"], [("4_d", ⟨"/tmp/d", "unknown", none⟩)]⟩ : FSState) with
         index := pyDictPop
           (FSState.index ⟨"/", [], ["/tmp/d"], [("4_d", ⟨"/tmp/d", "unknown", none⟩)]⟩)
           "4_d" }) :=
  move_non_regular_file_logged_only
    (⟨"/", [], ["/tmp/d"], []⟩ : FSState) "/tmp/d" 4 true true true "4_d"
    (⟨"/", [], ["/tmp/d"], [("4_d", ⟨"/tmp/d", "unknown", none⟩)]⟩ : FSState)
    (by decide) (by decide) (by decide)

/-- C9: two paths with the same base name moved in within the same whole
second receive the same generated key, and the second call silently
overwrites the first call's entry in the index: afterwards exactly one
binding of that key exists and it is the entry recorded by the second
call (last-write-wins).  `hFresh` says the key was not already taken
before the first move. -/
theorem duplicate_key_last_write_wins (now : Nat) (s : FSState) (p₁ p₂ : String)
    (o₁ r₁ o₂ r₂ : Bool) (k₁ k₂ : String) (s₁ s₂ : FSState)
    (hBase : basename p₁ = basename p₂)
    (hFresh : pyDictGet s.index (moveKey now p₁) = none)
    (hm₁ : move_to_recycle now o₁ r₁ p₁ s = (k₁, s₁))
    (hm₂ : move_to_recycle now o₂ r₂ p₂ s₁ = (k₂, s₂)) :
    k₁ = k₂ ∧
    s₂.index.filter (fun q => q.1 == k₁) = [(k₁, moveEntry s₁ o₂ p₂ k₂)] := by
  have hkey : moveKey now p₁ = moveKey now p₂ := by
    simp [moveKey, moveName, hBase]
  have hk₁ : k₁ = moveKey now p₁ := (congrArg Prod.fst hm₁).symm
  have hk₂ : k₂ = moveKey now p₂ := (congrArg Prod.fst hm₂).symm
  have hidx₁ : s₁.index =
      pyDictSet s.index (moveKey now p₁) (moveEntry s o₁ p₁ (moveKey now p₁)) :=
    (congrArg (fun x => x.2.index) hm₁).symm
  have hidx₂ : s₂.index =
      pyDictSet s₁.index (moveKey now p₂) (moveEntry s₁ o₂ p₂ (moveKey now p₂)) :=
    (congrArg (fun x => x.2.index) hm₂).symm
  refine ⟨hk₁.trans (hkey.trans hk₂.symm), ?_⟩
  rw [hk₁, hk₂, hidx₂, hidx₁, ← hkey]
  exact pyDict_last_write_wins s.index (moveKey now p₁) _ _ hFresh

/-- C9 witness: `/a/x.txt` and `/b/x.txt` both moved at timestamp 9; the
keys collide and only the second entry survives. -/
theorem duplicate_key_last_write_wins_witness :
    ("9_x.txt" : String) = "9_x.txt" ∧
    (FSState.index ⟨"/", [], [],
        [("9_x.txt", ⟨"/b/x.txt", "unknown", none⟩)]⟩).filter
        (fun q => q.1 == "9_x.txt") =
      [("9_x.txt",
        moveEntry (⟨"/", [], [], [("9_x.txt", ⟨"/a/x.txt", "unknown", none⟩)]⟩ : FSState)
          true "/b/x.txt" "9_x.txt")] :=
  duplicate_key_last_write_wins 9 (⟨"/", [], [], []⟩ : FSState) "/a/x.txt" "/b/x.txt"
    true true true true "9_x.txt" "9_x.txt"
    (⟨"/", [], [], [("9_x.txt", ⟨"/a/x.txt", "unknown", none⟩)]⟩ : FSState)
    (⟨"/", [], [], [("9_x.txt", ⟨"/b/x.txt", "unknown", none⟩)]⟩ : FSState)
    (by decide) (by decide) (by decide) (by decide)

/-- C10: for every path whose base name is empty (for example a path
ending in the directory separator), `move_to_recycle` substitutes the
literal name `"unknown"`: the returned key is
`"<unix_timestamp>_unknown"`, which differs from `"<unix_timestamp>_"`. -/
theorem empty_basename_unknown_key (now : Nat) (s : FSState) (o r : Bool)
    (path : String) (hb : basename path = "") :
    (move_to_recycle now o r path s).1 = toString now ++ "_" ++ "unknown" ∧
    toString now ++ "_" ++ "unknown" ≠ toString now ++ "_" := by
  constructor
  · show moveKey now path = _
    rw [moveKey, moveName, if_pos hb]
  · intro h
    have h7 : ("unknown" : String).length = 7 := rfl
    have h1 : ("_" : String).length = 1 := rfl
    have hlen := congrArg String.length h
    simp only [String.length_append, h7, h1] at hlen
    omega

/-- C10 witness: moving `"/tmp/"` (basename empty) at timestamp 5. -/
theorem empty_basename_unknown_key_witness :
    (move_to_recycle 5 true true "/tmp/" (⟨"/", [], [], []⟩ : FSState)).1 =
      toString 5 ++ "_" ++ "unknown" ∧
    toString 5 ++ "_" ++ "unknown" ≠ toString 5 ++ "_" :=
  empty_basename_unknown_key 5 (⟨"/", [], [], []⟩ : FSState) true true "/tmp/"
    (by decide)

end CinnaOS
